import Mathlib

/-!
Verification development for the actor / work-item service (CS409-MP3).

The repository stores two MongoDB-backed collections — users ("actors") and
tasks ("work items") — and maintains a denormalized bidirectional reference
between them.  This file gives a shallow embedding of the route handlers and
of the shared query-decoding helpers, and proves the specification claims
about them.

Embedding conventions:
* Both collections are lists of documents; `_id` fields are plain strings.
* Mongo `updateOne {_id : x}` targets the `_id` unique index, so at most one
  document can match; it is embedded as a guarded map over the collection
  (extensionally the same on any collection Mongo can hold).
  `updateMany p u` is a guarded map as well.  `findById` is `List.find?`.
* `$pull` removes every occurrence (`List.filter`), `$addToSet` appends at
  the end when the value is absent.
* The `email` unique index is embedded as an explicit pre-write check that
  fails with the same 400 response the route's `11000` handler produces.
* Mongoose `Date` casting of `deadline` is not modelled: `deadline` is kept
  as the supplied string (none of the claims concerns its value).
* JS truthiness on string-typed body fields: absent and `""` are falsy.
-/

namespace MP3

/-! ## Data model (src/models/task.js, src/unnamed/part_004) -/

structure TaskDoc where
  tid : String
  name : String
  description : String
  deadline : String
  completed : Bool
  assignedUser : String
  assignedUserName : String
deriving DecidableEq, Repr

structure UserDoc where
  uid : String
  name : String
  email : String
  pendingTasks : List String
deriving DecidableEq, Repr

structure DB where
  users : List UserDoc
  tasks : List TaskDoc
deriving DecidableEq, Repr

/-! ## Shared helpers (src/unnamed/part_000, routes' local helpers) -/

/-- JS truthiness of an optional string field (`!x` guard): absent and `""`
are falsy, every other string is truthy. -/
def truthyS : Option String → Bool
  | none => false
  | some s => s != ""

/-- The whitespace set trimmed by the JS string functions used here
(ASCII subset). -/
def isJsSpace (c : Char) : Bool :=
  c == ' ' || c == '\t' || c == '\n' || c == '\r' || c == '\x0b' || c == '\x0c'

/-- Trim on the character list (the embedding of `String.prototype.trim` and
of the mongoose `trim` setter). -/
def trimChars (l : List Char) : List Char :=
  ((l.dropWhile isJsSpace).reverse.dropWhile isJsSpace).reverse

def trimStr (s : String) : String := String.mk (trimChars s.data)

def toLowerStr (s : String) : String := String.mk (s.data.map Char.toLower)

/-- `toIdStr` (src/unnamed/part_000:14-18): absent input becomes `""`,
present input is stringified and trimmed. -/
def toIdStr : Option String → String
  | none => ""
  | some s => trimStr s

def isHexDigitChar (c : Char) : Bool :=
  c.isDigit || ('a' ≤ c && c ≤ 'f') || ('A' ≤ c && c ≤ 'F')

/-- `mongoose.Types.ObjectId.isValid` on a string: a 24-character hex string
or any 12-character string. -/
def isValidObjectId (s : String) : Bool :=
  (s.length == 24 && s.data.all isHexDigitChar) || s.length == 12

/-- A JS `Set` built from a list of strings, read back with the spread
operator: duplicates dropped, first occurrence kept. -/
def jsSet (l : List String) : List String :=
  l.foldl (fun acc x => if acc.contains x then acc else acc ++ [x]) []

/-- Mongo `$pull {pendingTasks: tid}` on one user document. -/
def pullPend (tid : String) (u : UserDoc) : UserDoc :=
  { u with pendingTasks := u.pendingTasks.filter (fun x => x != tid) }

/-- Mongo `$addToSet {pendingTasks: tid}` on one user document. -/
def addPend (tid : String) (u : UserDoc) : UserDoc :=
  if u.pendingTasks.contains tid then u
  else { u with pendingTasks := u.pendingTasks ++ [tid] }

/-- `User.updateOne({_id: uid}, ...)`: `_id` carries a unique index, so the
update touches exactly the documents whose `_id` equals `uid` (at most one in
any reachable store). -/
def updateById (uid : String) (f : UserDoc → UserDoc) (users : List UserDoc) :
    List UserDoc :=
  users.map (fun u => if u.uid = uid then f u else u)

/-! ## Work-item synchronizers -/

/-- `syncUserPendingStrict` (src/routes/tasks.js:37-52): maintains
`User.pendingTasks` from the before/after snapshots of one task.  Pulls the
task id from the prior assignee when the assignment changed; for the current
assignee, pulls when the task is completed and add-to-sets otherwise. -/
def syncUserPendingStrict (before : Option TaskDoc) (after : TaskDoc)
    (users : List UserDoc) : List UserDoc :=
  let prevUser := match before with
    | some b => b.assignedUser
    | none => ""
  let nextUser := after.assignedUser
  let tid := after.tid
  let users1 :=
    if prevUser != "" && prevUser != nextUser then
      updateById prevUser (pullPend tid) users
    else users
  if nextUser != "" then
    if after.completed then updateById nextUser (pullPend tid) users1
    else updateById nextUser (addPend tid) users1
  else users1

/-- `syncUserPendingStrict` — the strict variant (src/unnamed/part_003:353-378):
when the after-state is completed it pulls the task id from **every** user's
`pendingTasks` (`User.updateMany({pendingTasks: tid}, {$pull ...})`) and
stops; otherwise it pulls from the prior assignee, add-to-sets for the new
one, and when nobody is assigned pulls from every user. -/
def syncUserPendingStrictAll (before : Option TaskDoc) (after : TaskDoc)
    (users : List UserDoc) : List UserDoc :=
  let tid := after.tid
  let oldUid := toIdStr (match before with
    | some b => some b.assignedUser
    | none => none)
  let newUid := toIdStr (some after.assignedUser)
  if after.completed then
    users.map (fun u => if u.pendingTasks.contains tid then pullPend tid u else u)
  else
    let users1 :=
      if oldUid != "" && oldUid != newUid then updateById oldUid (pullPend tid) users
      else users
    let users2 :=
      if newUid != "" then updateById newUid (addPend tid) users1 else users1
    if newUid == "" then
      users2.map (fun u => if u.pendingTasks.contains tid then pullPend tid u else u)
    else users2

/-- The previous assignee the synchronizer reads from the `before` snapshot
(`before?.assignedUser ? String(before.assignedUser) : ""`). -/
def prevAssigned : Option TaskDoc → String
  | some b => b.assignedUser
  | none => ""

/-! ## Response envelope (src/unnamed/part_000:4-9 and the routes' local
response helpers): status code and message; the payload is recoverable from
the returned store state. -/

inductive Resp where
  | ok (msg : String)
  | created (msg : String)
  | badRequest (msg : String)
  | notFound (msg : String)
deriving DecidableEq, Repr

/-- Request body of the task endpoints (`req.body`); absent fields are
`none`.  `completed` is modelled as an optional boolean, `deadline` as an
opaque string. -/
structure TaskBody where
  name : Option String := none
  description : Option String := none
  deadline : Option String := none
  completed : Option Bool := none
  assignedUser : Option String := none
  assignedUserName : Option String := none
deriving DecidableEq, Repr

/-- Request body of the user endpoints. -/
structure UserBody where
  name : Option String := none
  email : Option String := none
  pendingTasks : Option (List String) := none
deriving DecidableEq, Repr

/-- The user schema stores `email` with `trim` and `lowercase` setters
(src/unnamed/part_004:8-14). -/
def emailNorm (s : String) : String := toLowerStr (trimStr s)

/-- `req.body.assignedUser ? String(req.body.assignedUser) : ""`
(src/routes/tasks.js:91,157). -/
def bodyAssignedUser (body : TaskBody) : String :=
  match body.assignedUser with
  | some s => if s = "" then "" else s
  | none => ""

/-! ## Task routes (src/routes/tasks.js, wired revision, lines 1-214) -/

/-- Tail of `POST /api/tasks` (src/routes/tasks.js:104-114) once
`assignedUser`/`assignedUserName` are resolved: build the payload
(`description` defaults to `""`, `completed` to `false`), create the task,
run the synchronizer, answer 201. -/
def postTaskFinish (db : DB) (newId : String) (body : TaskBody)
    (au aun : String) : Resp × DB :=
  let t : TaskDoc :=
    { tid := newId
      name := body.name.getD ""
      description := body.description.getD ""
      deadline := body.deadline.getD ""
      completed := body.completed.getD false
      assignedUser := au
      assignedUserName := aun }
  (Resp.created "Created",
    { users := syncUserPendingStrict none t db.users, tasks := db.tasks ++ [t] })

/-- `POST /api/tasks` (src/routes/tasks.js:83-121).  `newId` is the `_id`
the store assigns to the created document. -/
def postTask (db : DB) (newId : String) (body : TaskBody) : Resp × DB :=
  if !truthyS body.name || body.deadline.isNone then
    (Resp.badRequest "name and deadline are required", db)
  else
    let au := bodyAssignedUser body
    if au != "" then
      if !isValidObjectId au then
        (Resp.badRequest "invalid assignedUser id format", db)
      else
        match db.users.find? (fun u => u.uid == au) with
        | none => (Resp.badRequest "assignedUser does not exist", db)
        | some u =>
          match body.assignedUserName with
          | some m =>
            if m ≠ u.name then
              (Resp.badRequest "assignedUserName must match the user's name", db)
            else postTaskFinish db newId body au u.name
          | none => postTaskFinish db newId body au u.name
    else postTaskFinish db newId body "" "unassigned"

/-- Tail of `PUT /api/tasks/:id` (src/routes/tasks.js:169-180): replace the
stored document's mutable fields, save, synchronize, answer 200. -/
def putTaskFinish (db : DB) (pid : String) (body : TaskBody)
    (before : TaskDoc) (au aun : String) : Resp × DB :=
  let t : TaskDoc :=
    { before with
      name := body.name.getD ""
      description := body.description.getD ""
      deadline := body.deadline.getD ""
      completed := body.completed.getD false
      assignedUser := au
      assignedUserName := aun }
  (Resp.ok "Updated",
    { users := syncUserPendingStrict (some before) t db.users
      tasks := db.tasks.map (fun x => if x.tid = pid then t else x) })

/-- `PUT /api/tasks/:id` (src/routes/tasks.js:141-187), the wired revision.
Note: it performs no check of the stored `completed` flag. -/
def putTask (db : DB) (pid : String) (body : TaskBody) : Resp × DB :=
  if !isValidObjectId pid then (Resp.notFound "task not found", db)
  else
    match db.tasks.find? (fun t => t.tid == pid) with
    | none => (Resp.notFound "task not found", db)
    | some task =>
      if !truthyS body.name || body.deadline.isNone then
        (Resp.badRequest "name and deadline are required", db)
      else
        let au := bodyAssignedUser body
        if au != "" then
          if !isValidObjectId au then
            (Resp.badRequest "invalid assignedUser id format", db)
          else
            match db.users.find? (fun u => u.uid == au) with
            | none => (Resp.badRequest "assignedUser does not exist", db)
            | some u =>
              match body.assignedUserName with
              | some m =>
                if m ≠ u.name then
                  (Resp.badRequest "assignedUserName must match the user's name", db)
                else putTaskFinish db pid body task au u.name
              | none => putTaskFinish db pid body task au u.name
        else putTaskFinish db pid body task "" "unassigned"

/-- `Date.parse` parseability (src/routes/tasks.js:243, `isISODateLike`),
modelled for the basic ISO `YYYY-MM-DD` calendar-date shape — the only shape
exercised in this development; other `Date.parse` formats are out of scope. -/
def isISODateLike (s : String) : Bool :=
  match s.data with
  | [y1, y2, y3, y4, d1, m1, m2, d2, a1, a2] =>
    y1.isDigit && y2.isDigit && y3.isDigit && y4.isDigit &&
    d1 == '-' && m1.isDigit && m2.isDigit && d2 == '-' && a1.isDigit && a2.isDigit
  | _ => false

/-- `PUT /api/tasks/:id`, the later revision of the same file
(src/routes/tasks.js:461-514): same flow, but it additionally requires a
`Date.parse`-able deadline and rejects any update of a task whose stored
`completed` is already `true` with 400 "cannot update a completed task".
A malformed path id surfaces as a `CastError`, mapped to 400 by its catch
block (line 508). -/
def putTaskChecked (db : DB) (pid : String) (body : TaskBody) : Resp × DB :=
  if !truthyS body.name || !truthyS body.deadline then
    (Resp.badRequest "name and deadline are required", db)
  else if !isISODateLike (body.deadline.getD "") then
    (Resp.badRequest "invalid deadline format", db)
  else if !isValidObjectId pid then
    (Resp.badRequest "invalid field type or value", db)
  else
    match db.tasks.find? (fun t => t.tid == pid) with
    | none => (Resp.notFound "task not found", db)
    | some task =>
      if task.completed then
        (Resp.badRequest "cannot update a completed task", db)
      else
        let au := toIdStr body.assignedUser
        if au != "" then
          if !isValidObjectId au then
            (Resp.badRequest "invalid assignedUser id format", db)
          else
            match db.users.find? (fun u => u.uid == au) with
            | none => (Resp.badRequest "assignedUser does not exist", db)
            | some u =>
              match body.assignedUserName with
              | some m =>
                if m ≠ u.name then
                  (Resp.badRequest "assignedUserName must match the user's name", db)
                else putTaskFinish db pid body task au u.name
              | none => putTaskFinish db pid body task au u.name
        else putTaskFinish db pid body task "" "unassigned"

/-! ## User routes (src/routes/users.js, wired revision, lines 1-254) -/

/-- `POST /api/users` (src/routes/users.js:129-148), the wired revision: it
stores any supplied `pendingTasks` list verbatim, with no existence or
completion check and no task-side synchronization. -/
def postUser (db : DB) (newId : String) (body : UserBody) : Resp × DB :=
  if !truthyS body.name || !truthyS body.email then
    (Resp.badRequest "name and email are required", db)
  else
    let email := emailNorm (body.email.getD "")
    if db.users.any (fun v => v.email == email) then
      (Resp.badRequest "email already exists", db)
    else
      let u : UserDoc :=
        { uid := newId, name := body.name.getD "", email := email
          pendingTasks := body.pendingTasks.getD [] }
      (Resp.created "Created", { db with users := db.users ++ [u] })

/-- The task ids among `ids` that name a completed task:
`Task.find({_id: {$in: ids}, completed: true}).distinct("_id")`
(src/routes/users.js:183). -/
def doneIdsAmong (db : DB) (ids : List String) : List String :=
  (db.tasks.filter (fun t => ids.contains t.tid && t.completed)).map (fun t => t.tid)

/-- The writes of `PUT /api/users/:id` (src/routes/users.js:192-223): save
the replaced user document, issue the task-side corrective writes driven by
the old/new `pendingTasks` difference, and on a rename propagate the new
name to every task assigned to this user. -/
def putUserWrite (db : DB) (user : UserDoc) (name email : String)
    (nowIds : Option (List String)) : DB :=
    let oldName := user.name
    let oldSet := jsSet user.pendingTasks
    let user' : UserDoc :=
      { user with
        name := name
        email := email
        pendingTasks :=
          (match nowIds with
          | some l => l
          | none => user.pendingTasks) }
    let users1 := updateById user.uid (fun _ => user') db.users
    let tasks1 :=
      match nowIds with
      | none => db.tasks
      | some l =>
        let added := l.filter (fun x => !oldSet.contains x)
        let removed := oldSet.filter (fun x => !l.contains x)
        let ta :=
          if !added.isEmpty then
            db.tasks.map (fun t =>
              if added.contains t.tid && !t.completed then
                { t with assignedUser := user.uid, assignedUserName := name }
              else t)
          else db.tasks
        if !removed.isEmpty then
          ta.map (fun t =>
            if removed.contains t.tid && t.assignedUser == user.uid then
              { t with assignedUser := "", assignedUserName := "unassigned" }
            else t)
        else ta
    let tasks2 :=
      if oldName != name then
        tasks1.map (fun t =>
          if t.assignedUser == user.uid then { t with assignedUserName := name } else t)
      else tasks1
    { users := users1, tasks := tasks2 }

/-- Tail of `PUT /api/users/:id` (src/routes/users.js:192-225) after the
completed-`pendingTasks` validation: the `email` unique index can fail the
save with 400 before any write; otherwise the writes of `putUserWrite` are
applied and the route answers 200 "Updated". -/
def putUserApply (db : DB) (user : UserDoc) (name email : String)
    (nowIds : Option (List String)) : Resp × DB :=
  if db.users.any (fun v => v.uid != user.uid && v.email == email) then
    (Resp.badRequest "email already exists", db)
  else (Resp.ok "Updated", putUserWrite db user name email nowIds)

/-- `PUT /api/users/:id` (src/routes/users.js:167-232), the wired revision:
full replace; a supplied `pendingTasks` list must not contain completed
tasks; the old/new difference drives the task-side corrective writes; a name
change is propagated to every task assigned to this user.  It does **not**
pull added ids out of their previous owner's `pendingTasks`. -/
def putUser (db : DB) (pid : String) (body : UserBody) : Resp × DB :=
  if !truthyS body.name || !truthyS body.email then
    (Resp.badRequest "name and email are required", db)
  else
    match db.users.find? (fun u => u.uid == pid) with
    | none => (Resp.notFound "user not found", db)
    | some user =>
      let name := body.name.getD ""
      let email := emailNorm (body.email.getD "")
      match body.pendingTasks with
      | some l =>
        if !l.isEmpty && !(doneIdsAmong db l).isEmpty then
          (Resp.badRequest
            ("cannot add completed tasks to pendingTasks: "
              ++ String.intercalate "," (doneIdsAmong db l)), db)
        else putUserApply db user name email (some l)
      | none => putUserApply db user name email none

/-- `DELETE /api/users/:id` (src/routes/users.js:235-252): remove the user,
then clear `assignedUser`/`assignedUserName` on every task that referenced
it. -/
def deleteUser (db : DB) (pid : String) : Resp × DB :=
  match db.users.find? (fun u => u.uid == pid) with
  | none => (Resp.notFound "user not found", db)
  | some u =>
    (Resp.ok "Deleted",
      { users := db.users.eraseP (fun v => v.uid == u.uid)
        tasks := db.tasks.map (fun t =>
          if t.assignedUser == u.uid then
            { t with assignedUser := "", assignedUserName := "unassigned" }
          else t) })

/-! ## User routes, validating revision (src/unnamed/part_001) -/

/-- `toIdStrArray` (src/unnamed/part_000:21-33): keep only genuine array
input, stringify-and-trim each entry, drop empties, de-duplicate keeping the
first occurrence. -/
def toIdStrArraySh (l : List String) : List String :=
  jsSet ((l.map trimStr).filter (fun s => s != ""))

/-- `syncTasksOnUserPendingChange` (src/unnamed/part_001:36-67): assign each
added (existing, incomplete) task to this user, pull those ids out of their
previous owners' `pendingTasks`, and un-assign each removed task that still
points at this user. -/
def syncTasksOnUserPendingChange (userId userName : String)
    (addedIds removedIds : List String) (db : DB) : DB :=
  let uid := userId
  let addedTasks := db.tasks.filter (fun t => addedIds.contains t.tid && !t.completed)
  let prevOwnerIds :=
    jsSet ((addedTasks.map (fun t => t.assignedUser)).filter
      (fun x => x != "" && x != uid))
  let addedTaskIds := addedTasks.map (fun t => t.tid)
  let tasks1 :=
    if !addedTaskIds.isEmpty then
      db.tasks.map (fun t =>
        if addedTaskIds.contains t.tid then
          { t with assignedUser := uid, assignedUserName := userName }
        else t)
    else db.tasks
  let users1 :=
    if !prevOwnerIds.isEmpty && !addedTaskIds.isEmpty then
      db.users.map (fun u =>
        if prevOwnerIds.contains u.uid then
          { u with pendingTasks :=
              u.pendingTasks.filter (fun x => !addedTaskIds.contains x) }
        else u)
    else db.users
  let tasks2 :=
    if !removedIds.isEmpty then
      tasks1.map (fun t =>
        if removedIds.contains t.tid && t.assignedUser == uid then
          { t with assignedUser := "", assignedUserName := "unassigned" }
        else t)
    else tasks1
  { users := users1, tasks := tasks2 }

/-- `POST /api/users` (src/unnamed/part_001:99-147), the validating
revision: every supplied pending id must be a well-formed id of an existing
task ("task not vaild" otherwise), none may be completed (400 naming the
completed ids), and after creation the added tasks are assigned to the new
user via `syncTasksOnUserPendingChange`. -/
def postUserChecked (db : DB) (newId : String) (body : UserBody) : Resp × DB :=
  if !truthyS body.name || !truthyS body.email then
    (Resp.badRequest "name and email are required", db)
  else
    let nowIds := (body.pendingTasks.getD []).map trimStr |>.filter (fun s => s != "") |> jsSet
    let hasNow := body.pendingTasks.isSome && !nowIds.isEmpty
    if hasNow && nowIds.any (fun item =>
        !(isValidObjectId item) || (db.tasks.find? (fun t => t.tid == item)).isNone) then
      (Resp.badRequest "task not vaild", db)
    else if hasNow && !(doneIdsAmong db nowIds).isEmpty then
      (Resp.badRequest
        ("cannot add completed tasks to pendingTasks: "
          ++ String.intercalate "," (doneIdsAmong db nowIds)), db)
    else
      let email := emailNorm (body.email.getD "")
      if db.users.any (fun v => v.email == email) then
        (Resp.badRequest "email already exists", db)
      else
        let u : UserDoc :=
          { uid := newId, name := body.name.getD "", email := email
            pendingTasks := body.pendingTasks.getD [] }
        let db1 : DB := { db with users := db.users ++ [u] }
        if hasNow then
          (Resp.created "Created", syncTasksOnUserPendingChange newId u.name nowIds [] db1)
        else (Resp.created "Created", db1)

/-! ## Query Filter Decoder: projection (src/unnamed/part_000:50-69) -/

/-- A JSON value used as a projection marker.  `sanitizeSelect` inspects
only whether it is `1`, `true`, `0` or `false`; any other value is
`other`. -/
inductive SelVal where
  | one
  | tru
  | zero
  | fls
  | other
deriving DecidableEq, Repr

/-- `v === 1 || v === true` (src/unnamed/part_000:55). -/
def isIncMark : SelVal → Bool
  | SelVal.one => true
  | SelVal.tru => true
  | _ => false

/-- `v === 0 || v === false` (src/unnamed/part_000:56). -/
def isExcMark : SelVal → Bool
  | SelVal.zero => true
  | SelVal.fls => true
  | _ => false

/-- `sanitizeSelect` (src/unnamed/part_000:50-69).  The object is its entry
list (JS object keys are unique); `none` is any falsy `sel`. -/
def sanitizeSelect (sel : Option (List (String × SelVal))) :
    Except String (Option (List (String × SelVal))) :=
  match sel with
  | none => Except.ok none
  | some entries =>
    if entries.isEmpty then Except.ok none
    else
      let isInc := entries.any (fun e => isIncMark e.2)
      let isExc := entries.any (fun e => isExcMark e.2)
      if isInc && isExc then
        let rest := entries.filter (fun e => e.1 != "_id")
        if rest.any (fun e => isExcMark e.2) then
          Except.error "Cannot mix inclusion and exclusion in select (except _id)."
        else Except.ok (some entries)
      else Except.ok (some entries)

/-! ## Query Filter Decoder: pagination -/

/-- Result of the JS `Number(...)` coercion of a string.  A finite value is
kept as the exact (unnormalized) fraction `num / den` with `den` a positive
power of the literal's radix — IEEE-754 rounding of the mathematical value
is not modelled (it cannot change whether the result is a non-negative
integer for the magnitudes exercised here). -/
inductive JNum where
  | nan
  | posInf
  | negInf
  | val (num : Int) (den : Nat)
deriving DecidableEq, Repr

def hexVal (c : Char) : Nat :=
  if c.isDigit then c.toNat - 48
  else if 'a' ≤ c && c ≤ 'f' then c.toNat - 87
  else c.toNat - 55

def digitsVal (base : Nat) (l : List Char) : Nat :=
  l.foldl (fun a c => a * base + hexVal c) 0

def isOctDigitChar (c : Char) : Bool := '0' ≤ c && c ≤ '7'

def isBinDigitChar (c : Char) : Bool := c == '0' || c == '1'

/-- Decimal branch of the JS `Number(...)` string coercion
(`StrDecimalLiteral`): optional sign, `Infinity`, or digits with an optional
fraction and exponent.  The mantissa is the concatenated integer and
fraction digits; the effective power of ten is the exponent minus the
fraction length. -/
def jsDecimal (l : List Char) : JNum :=
  let sgn : Bool × List Char :=
    match l with
    | '+' :: r => (false, r)
    | '-' :: r => (true, r)
    | r => (false, r)
  let rest := sgn.2
  if rest == "Infinity".data then
    (if sgn.1 then JNum.negInf else JNum.posInf)
  else
    let ip := rest.takeWhile Char.isDigit
    let r1 := rest.drop ip.length
    let fpr : List Char × List Char :=
      match r1 with
      | '.' :: r => (r.takeWhile Char.isDigit, r.drop (r.takeWhile Char.isDigit).length)
      | r => ([], r)
    let fp := fpr.1
    let r2 := fpr.2
    if ip.isEmpty && fp.isEmpty then JNum.nan
    else
      let er : Bool × Int × List Char :=
        match r2 with
        | c :: r =>
          if c == 'e' || c == 'E' then
            let es : Bool × List Char :=
              match r with
              | '+' :: rr => (false, rr)
              | '-' :: rr => (true, rr)
              | rr => (false, rr)
            let ed := es.2.takeWhile Char.isDigit
            if ed.isEmpty then (false, 0, es.2)
            else (true, (if es.1 then -(digitsVal 10 ed : Int) else (digitsVal 10 ed : Int)),
              es.2.drop ed.length)
          else (true, 0, r2)
        | [] => (true, 0, [])
      if !er.1 || !er.2.2.isEmpty then JNum.nan
      else
        let mant : Int := (digitsVal 10 (ip ++ fp) : Nat)
        let m : Int := if sgn.1 then -mant else mant
        let e : Int := er.2.1 - (fp.length : Int)
        if 0 ≤ e then JNum.val (m * ((10 : Int) ^ e.toNat)) 1
        else JNum.val m ((10 : Nat) ^ (-e).toNat)

/-- The JS `Number(...)` coercion of a string (`ToNumber` on strings): trim,
empty means `0`, a `0x`/`0o`/`0b` prefix selects the radix literal (no sign
allowed), anything else is the decimal form handled by `jsDecimal`. -/
def jsNumber (raw : String) : JNum :=
  let l := trimChars raw.data
  if l.isEmpty then JNum.val 0 1
  else
    match l with
    | '0' :: c :: ds =>
      if c == 'x' || c == 'X' then
        (if !ds.isEmpty && ds.all isHexDigitChar then JNum.val (digitsVal 16 ds : Nat) 1 else JNum.nan)
      else if c == 'o' || c == 'O' then
        (if !ds.isEmpty && ds.all isOctDigitChar then JNum.val (digitsVal 8 ds : Nat) 1 else JNum.nan)
      else if c == 'b' || c == 'B' then
        (if !ds.isEmpty && ds.all isBinDigitChar then JNum.val (digitsVal 2 ds : Nat) 1 else JNum.nan)
      else jsDecimal l
    | _ => jsDecimal l

/-- `Number.isInteger(n) && n >= 0` on a coercion result: finite, integral
(the denominator divides the numerator) and non-negative. -/
def jsIsNonNegInt : JNum → Bool
  | JNum.val n d => n.emod (d : Int) == 0 && decide (0 ≤ n)
  | _ => false

/-- The integer value of an integral coercion result. -/
def jsIntVal : JNum → Int
  | JNum.val n d => n.ediv (d : Int)
  | _ => 0

/-- `parseNonNegInt` (src/unnamed/part_000:74-83): absent input yields the
fallback; otherwise the input is `Number(...)`-coerced and must satisfy
`Number.isInteger(n) && n >= 0`. -/
def parseNonNegInt (name : String) (raw : Option String) (fallback : Option Int) :
    Except String (Option Int) :=
  match raw with
  | none => Except.ok fallback
  | some r =>
    if jsIsNonNegInt (jsNumber r) then Except.ok (some (jsIntVal (jsNumber r)))
    else Except.error (name ++ " must be a non-negative integer")

/-- `parsePagination` (src/routes/tasks.js:31-35): skip defaults to 0, limit
to the caller's `defaultLimit` (100 for tasks, `null` for users). -/
def parsePagination (skipRaw limitRaw : Option String) (defaultLimit : Option Int) :
    Except String (Option Int × Option Int) :=
  match parseNonNegInt "skip" skipRaw (some 0) with
  | Except.error e => Except.error e
  | Except.ok skip =>
    match parseNonNegInt "limit" limitRaw defaultLimit with
    | Except.error e => Except.error e
    | Except.ok limit => Except.ok (skip, limit)

/-- `/^\d+$/.test(String(raw))` (src/routes/users.js:67,73). -/
def isDigitString (s : String) : Bool :=
  s != "" && s.data.all Char.isDigit

/-- `parsePagination`, the regex revision (src/routes/users.js:61-78): a
present value must match `/^\d+$/`; absent skip is 0, absent limit is the
caller default. -/
def parsePaginationRegex (skipRaw limitRaw : Option String) (defaultLimit : Option Int) :
    Except String (Int × Option Int) :=
  let skipR : Except String Int :=
    match skipRaw with
    | none => Except.ok 0
    | some r =>
      if isDigitString r then Except.ok (digitsVal 10 r.data)
      else Except.error "skip must be a non-negative integer"
  match skipR with
  | Except.error e => Except.error e
  | Except.ok skip =>
    match limitRaw with
    | none => Except.ok (skip, defaultLimit)
    | some r =>
      if isDigitString r then Except.ok (skip, some (digitsVal 10 r.data))
      else Except.error "limit must be a non-negative integer"

/-! ## Concrete store fixtures used by witnesses and counterexamples -/

def fxIdA : String := "aaaaaaaaaaaaaaaaaaaaaaaa"

def fxIdB : String := "bbbbbbbbbbbbbbbbbbbbbbbb"

def fxIdC : String := "cccccccccccccccccccccccc"

def fxTid1 : String := "eeeeeeeeeeeeeeeeeeeeeeee"

def fxUserA : UserDoc :=
  { uid := fxIdA, name := "Al", email := "al@x.y", pendingTasks := [fxTid1] }

def fxUserC : UserDoc :=
  { uid := fxIdC, name := "Cy", email := "cy@x.y", pendingTasks := [fxTid1] }

def fxBefore : TaskDoc :=
  { tid := fxTid1, name := "t", description := "", deadline := "2025-01-02"
    completed := false, assignedUser := fxIdA, assignedUserName := "Al" }

def fxAfterDone : TaskDoc := { fxBefore with completed := true }

def fxTaskDone : TaskDoc :=
  { tid := fxTid1, name := "t", description := "", deadline := "2025-01-02"
    completed := true, assignedUser := fxIdA, assignedUserName := "Al" }

def fxDbDone : DB := { users := [fxUserA], tasks := [fxTaskDone] }

def fxPutBody : TaskBody := { name := some "t2", deadline := some "2025-01-03" }

def fxDbC3 : DB := { users := [], tasks := [fxTaskDone] }

def fxPostUserBody : UserBody :=
  { name := some "New", email := some "new@x.y", pendingTasks := some [fxTid1] }

def fxUserA2 : UserDoc :=
  { uid := fxIdA, name := "Al", email := "al@x.y", pendingTasks := [] }

def fxUserB2 : UserDoc :=
  { uid := fxIdB, name := "Bo", email := "bo@x.y", pendingTasks := [fxTid1] }

def fxTaskOfB : TaskDoc :=
  { tid := fxTid1, name := "t", description := "", deadline := "2025-01-02"
    completed := false, assignedUser := fxIdB, assignedUserName := "Bo" }

def fxDbC4 : DB := { users := [fxUserA2, fxUserB2], tasks := [fxTaskOfB] }

def fxPutUserBody : UserBody :=
  { name := some "Al", email := some "al@x.y", pendingTasks := some [fxTid1] }


def fxDbC5 : DB := { users := [fxUserA2], tasks := [fxTaskDone] }

def fxRenameBody : UserBody := { name := some "Albert", email := some "al@x.y" }


def fxTaskBody10 : TaskBody :=
  { name := some "t", deadline := some "2025-01-02"
    assignedUser := some fxIdA, assignedUserName := some "Bob" }

/-! ## Helper lemmas about the store primitives -/

theorem pullPend_uid (tid : String) (u : UserDoc) : (pullPend tid u).uid = u.uid := rfl

theorem addPend_uid (tid : String) (u : UserDoc) : (addPend tid u).uid = u.uid := by
  unfold addPend
  split <;> rfl

theorem pullPend_pullPend (tid : String) (u : UserDoc) :
    pullPend tid (pullPend tid u) = pullPend tid u := by
  simp [pullPend, List.filter_filter]

theorem addPend_addPend (tid : String) (u : UserDoc) :
    addPend tid (addPend tid u) = addPend tid u := by
  unfold addPend
  by_cases h : tid ∈ u.pendingTasks
  · simp [h, List.elem_iff]
  · simp [h, List.elem_iff]

theorem mem_pullPend (tid x : String) (u : UserDoc) :
    x ∈ (pullPend tid u).pendingTasks ↔ x ∈ u.pendingTasks ∧ x ≠ tid := by
  simp [pullPend, List.mem_filter, bne_iff_ne]

theorem updateById_getElem (uid : String) (f : UserDoc → UserDoc)
    (users : List UserDoc) (i : Nat) :
    (updateById uid f users)[i]? = users[i]?.map (fun u => if u.uid = uid then f u else u) := by
  simp [updateById, List.getElem?_map]

theorem updateById_congr (a : String) (f g : UserDoc → UserDoc)
    (h : ∀ u, f u = g u) (l : List UserDoc) :
    updateById a f l = updateById a g l := by
  unfold updateById
  refine List.map_congr_left ?_
  intro u _
  by_cases hu : u.uid = a <;> simp [hu, h]

theorem updateById_updateById_same (a : String) (f g : UserDoc → UserDoc)
    (hg : ∀ u, (g u).uid = u.uid) (l : List UserDoc) :
    updateById a f (updateById a g l) = updateById a (fun u => f (g u)) l := by
  unfold updateById
  rw [List.map_map]
  refine List.map_congr_left ?_
  intro u _
  by_cases h : u.uid = a
  · simp [Function.comp, h, hg]
  · simp [Function.comp, h]

theorem updateById_comm (a b : String) (hab : a ≠ b) (f g : UserDoc → UserDoc)
    (hf : ∀ u, (f u).uid = u.uid) (hg : ∀ u, (g u).uid = u.uid) (l : List UserDoc) :
    updateById a f (updateById b g l) = updateById b g (updateById a f l) := by
  unfold updateById
  rw [List.map_map, List.map_map]
  refine List.map_congr_left ?_
  intro u _
  by_cases ha : u.uid = a <;> by_cases hb : u.uid = b
  · exact absurd (ha.symm.trans hb) hab
  · simp [Function.comp, ha, hb, hf, hg, hab, Ne.symm hab]
  · simp [Function.comp, ha, hb, hf, hg, hab, Ne.symm hab]
  · simp [Function.comp, ha, hb]

theorem pullPend_of_not_mem (tid : String) (u : UserDoc) (h : tid ∉ u.pendingTasks) :
    pullPend tid u = u := by
  unfold pullPend
  have he : u.pendingTasks.filter (fun x => x != tid) = u.pendingTasks :=
    List.filter_eq_self.mpr (fun a ha => bne_iff_ne.mpr (fun hx => h (hx ▸ ha)))
  rw [he]

theorem completion_pull_pointwise (prev next tid : String) (users : List UserDoc)
    (i : Nat) (u r : UserDoc) (hu : users[i]? = some u)
    (hr : (if (next != "") = true then
             updateById next (pullPend tid)
               (if (prev != "" && prev != next) = true then
                 updateById prev (pullPend tid) users else users)
           else
             (if (prev != "" && prev != next) = true then
               updateById prev (pullPend tid) users else users))[i]? = some r) :
    (u.uid = next ∧ u.uid ≠ "" → tid ∉ r.pendingTasks)
    ∧ (u.uid = prev ∧ u.uid ≠ "" → tid ∉ r.pendingTasks)
    ∧ (u.uid ≠ next ∧ u.uid ≠ prev → r = u) := by
  by_cases c1 : (prev != "" && prev != next) = true
  · by_cases c2 : (next != "") = true
    · rw [if_pos c2, if_pos c1] at hr
      rw [updateById_getElem, updateById_getElem] at hr
      simp only [hu, Option.map_some', Option.some_inj] at hr
      by_cases hup : u.uid = prev
      · have hune : u.uid ≠ next := by
          have hpn := bne_iff_ne.mp ((Bool.and_eq_true _ _).mp c1).2
          exact hup ▸ hpn
        rw [if_pos hup] at hr
        have huid : (pullPend tid u).uid = u.uid := rfl
        rw [if_neg (huid ▸ hune)] at hr
        subst hr
        refine ⟨fun h => absurd h.1 hune, fun _ => ?_, fun h => absurd hup h.2⟩
        rw [mem_pullPend]
        rintro ⟨-, hne⟩
        exact hne rfl
      · rw [if_neg hup] at hr
        by_cases hun : u.uid = next
        · rw [if_pos hun] at hr
          subst hr
          refine ⟨fun _ => ?_, fun h => absurd h.1 hup, fun h => absurd hun h.1⟩
          rw [mem_pullPend]
          rintro ⟨-, hne⟩
          exact hne rfl
        · rw [if_neg hun] at hr
          subst hr
          exact ⟨fun h => absurd h.1 hun, fun h => absurd h.1 hup, fun _ => rfl⟩
    · rw [if_neg c2, if_pos c1] at hr
      rw [updateById_getElem] at hr
      simp only [hu, Option.map_some', Option.some_inj] at hr
      have hnext : next = "" := by simpa using c2
      by_cases hup : u.uid = prev
      · rw [if_pos hup] at hr
        subst hr
        refine ⟨?_, fun _ => ?_, fun h => absurd hup h.2⟩
        · rintro ⟨h, hne⟩
          exact absurd (h.trans hnext) hne
        · rw [mem_pullPend]
          rintro ⟨-, hne⟩
          exact hne rfl
      · rw [if_neg hup] at hr
        subst hr
        refine ⟨?_, fun h => absurd h.1 hup, fun _ => rfl⟩
        rintro ⟨h, hne⟩
        exact absurd (h.trans hnext) hne
  · by_cases c2 : (next != "") = true
    · rw [if_pos c2, if_neg c1] at hr
      rw [updateById_getElem] at hr
      simp only [hu, Option.map_some', Option.some_inj] at hr
      by_cases hun : u.uid = next
      · rw [if_pos hun] at hr
        subst hr
        refine ⟨fun _ => ?_, fun _ => ?_, fun h => absurd hun h.1⟩
        · rw [mem_pullPend]
          rintro ⟨-, hne⟩
          exact hne rfl
        · rw [mem_pullPend]
          rintro ⟨-, hne⟩
          exact hne rfl
      · rw [if_neg hun] at hr
        subst hr
        refine ⟨fun h => absurd h.1 hun, fun h => ?_, fun _ => rfl⟩
        exfalso
        have c1' : (prev != "" && prev != next) = false := by
          simp only [Bool.not_eq_true] at c1
          exact c1
        rcases Bool.and_eq_false_iff.mp c1' with h' | h'
        · exact h.2 (h.1.trans (show prev = "" from by simpa using h'))
        · exact hun (h.1.trans (show prev = next from by simpa using h'))
    · rw [if_neg c2, if_neg c1] at hr
      rw [hu] at hr
      have hr' : u = r := Option.some_inj.mp hr
      subst hr'
      have hnext : next = "" := by simpa using c2
      have c1' : (prev != "" && prev != next) = false := by
        simp only [Bool.not_eq_true] at c1
        exact c1
      refine ⟨?_, ?_, fun _ => rfl⟩
      · rintro ⟨h, hne⟩
        exact absurd (h.trans hnext) hne
      · rintro ⟨h, hne⟩
        exfalso
        rcases Bool.and_eq_false_iff.mp c1' with h' | h'
        · exact hne (h.trans (show prev = "" from by simpa using h'))
        · exact hne (h.trans ((by simpa using h' : prev = next).trans hnext))

theorem isIncMark_not_exc (v : SelVal) (h : isIncMark v = true) : isExcMark v = false := by
  cases v <;> simp_all [isIncMark, isExcMark]

theorem mem_jsSet_aux (l acc : List String) (x : String) :
    x ∈ l.foldl (fun a y => if a.contains y then a else a ++ [y]) acc ↔ x ∈ acc ∨ x ∈ l := by
  induction l generalizing acc with
  | nil => simp
  | cons y ys ih =>
    simp only [List.foldl_cons]
    by_cases h : acc.contains y = true
    · rw [if_pos h, ih]
      constructor
      · rintro (hx | hx)
        · exact Or.inl hx
        · exact Or.inr (List.mem_cons_of_mem y hx)
      · rintro (hx | hx)
        · exact Or.inl hx
        · rcases List.mem_cons.mp hx with rfl | hx
          · exact Or.inl (List.elem_iff.mp h)
          · exact Or.inr hx
    · rw [if_neg h, ih]
      simp only [List.mem_append, List.mem_singleton, List.mem_cons]
      tauto

theorem mem_jsSet (l : List String) (x : String) : x ∈ jsSet l ↔ x ∈ l := by
  unfold jsSet
  rw [mem_jsSet_aux]
  simp

theorem putUser_ok_shape (db : DB) (pid : String) (body : UserBody) (user : UserDoc)
    (hfind : db.users.find? (fun u => u.uid == pid) = some user)
    (hok : (putUser db pid body).1 = Resp.ok "Updated") :
    putUser db pid body
      = (Resp.ok "Updated",
         putUserWrite db user (body.name.getD "") (emailNorm (body.email.getD ""))
           body.pendingTasks) := by
  simp only [putUser, hfind] at hok ⊢
  by_cases h1 : (!truthyS body.name || !truthyS body.email) = true
  · rw [if_pos h1] at hok
    exact absurd hok (by simp)
  · rw [if_neg h1] at hok ⊢
    cases hpt : body.pendingTasks with
    | none =>
      simp only [hpt] at hok ⊢
      simp only [putUserApply] at hok ⊢
      by_cases h2 : (db.users.any fun v =>
          v.uid != user.uid && v.email == emailNorm (body.email.getD "")) = true
      · rw [if_pos h2] at hok
        exact absurd hok (by simp)
      · rw [if_neg h2]
    | some l =>
      simp only [hpt] at hok ⊢
      by_cases hd : (!l.isEmpty && !(doneIdsAmong db l).isEmpty) = true
      · rw [if_pos hd] at hok
        exact absurd hok (by simp)
      · rw [if_neg hd] at hok ⊢
        simp only [putUserApply] at hok ⊢
        by_cases h2 : (db.users.any fun v =>
            v.uid != user.uid && v.email == emailNorm (body.email.getD "")) = true
        · rw [if_pos h2] at hok
          exact absurd hok (by simp)
        · rw [if_neg h2]

theorem guard_map_getElem (cond : Bool) (l : List TaskDoc) (g : TaskDoc → TaskDoc) (i : Nat) :
    (if cond then l.map g else l)[i]? = l[i]?.map (fun t => if cond then g t else t) := by
  cases cond with
  | true => simp [List.getElem?_map]
  | false => simp

/-! ## Claim theorems -/

/-- Claim C1, counterexample.  The wired synchronizer
(src/routes/tasks.js:37-52) does **not** remove a completed work item's id
from every actor's `pendingTasks`: with the item assigned to actor A and a
second actor C also holding the id, completing the item empties only A's
pending set; C keeps the id. -/
theorem C1_counterexample :
    fxAfterDone.completed = true
    ∧ fxUserC.pendingTasks = [fxAfterDone.tid]
    ∧ syncUserPendingStrict (some fxBefore) fxAfterDone [fxUserA, fxUserC]
        = [{ fxUserA with pendingTasks := [] }, fxUserC] := by
  decide

/-- Claim C2 (code bug), the failing input evaluated.  A full update of a
work item whose stored `completed` is already `true` is accepted by the
wired `PUT /api/tasks/:id` (src/routes/tasks.js:141-187): it answers
200 "Updated", rewrites the item and even resets `completed` to `false`.
The later revision of the same handler (src/routes/tasks.js:461-514)
rejects the same request with 400 "cannot update a completed task" and
leaves the store untouched, as the claim states. -/
theorem C2_completed_update_accepted :
    fxTaskDone.completed = true
    ∧ (putTask fxDbDone fxTid1 fxPutBody).1 = Resp.ok "Updated"
    ∧ (putTask fxDbDone fxTid1 fxPutBody).2 ≠ fxDbDone
    ∧ ((putTask fxDbDone fxTid1 fxPutBody).2.tasks.map (fun t => t.completed)) = [false]
    ∧ putTaskChecked fxDbDone fxTid1 fxPutBody
        = (Resp.badRequest "cannot update a completed task", fxDbDone) := by
  decide

/-- Claim C3 (code bug), the failing input evaluated.  The wired
`POST /api/users` (src/routes/users.js:129-148) creates the actor (201) even
when the supplied `pendingTasks` names a work item with `completed = true`,
storing the list verbatim.  The validating revision
(src/unnamed/part_001:99-147) rejects the same request with a 400 naming the
offending completed id and creates nothing, as the claim states. -/
theorem C3_completed_pending_created :
    fxTaskDone.completed = true
    ∧ (postUser fxDbC3 fxIdB fxPostUserBody).1 = Resp.created "Created"
    ∧ ((postUser fxDbC3 fxIdB fxPostUserBody).2.users.map (fun u => u.pendingTasks))
        = [[fxTid1]]
    ∧ postUserChecked fxDbC3 fxIdB fxPostUserBody
        = (Resp.badRequest ("cannot add completed tasks to pendingTasks: " ++ fxTid1),
           fxDbC3) :=
  ⟨rfl, rfl, rfl, rfl⟩

/-- Claim C4, counterexample.  The wired `PUT /api/users/:id`
(src/routes/users.js:199-215) assigns an added work item to this actor but
does **not** remove the id from the previous owner's `pendingTasks`: after
actor A's full update adds the item owned by actor B, the item's
`assignedUser` is A while B's `pendingTasks` still contains the id. -/
theorem C4_counterexample :
    (putUser fxDbC4 fxIdA fxPutUserBody).1 = Resp.ok "Updated"
    ∧ ((putUser fxDbC4 fxIdA fxPutUserBody).2.tasks.map (fun t => t.assignedUser))
        = [fxIdA]
    ∧ ((putUser fxDbC4 fxIdA fxPutUserBody).2.users.map (fun u => u.pendingTasks))
        = [[fxTid1], [fxTid1]] :=
  ⟨rfl, rfl, rfl⟩

/-- Claim C8, counterexample.  The pagination decoder actually used by the
task route (`parseNonNegInt`, src/unnamed/part_000:74-83) coerces the raw
value with JS `Number(...)`, so `"1e2"` — which is not a base-10
non-negative integer string — is accepted as limit 100 instead of causing
an `InvalidPagination` failure. -/
theorem C8_counterexample :
    isDigitString "1e2" = false
    ∧ parseNonNegInt "limit" (some "1e2") (some 100) = Except.ok (some 100) :=
  ⟨rfl, rfl⟩


/-- Claim C1, amended and settled.  For a work-item write whose after-state
is completed, the wired synchronizer (src/routes/tasks.js:37-52) removes the
item's id from the currently assigned actor's `pendingTasks` and from the
prior assignee's (when the assignment changed) — any **other** actor's
document is left entirely unchanged, so the removal is not from "every"
actor.  The strict revision (src/unnamed/part_003:353-378) does remove the
id from every actor's `pendingTasks`, touching nothing else of the user
document.  Neither synchronizer writes to the task collection at all, so
`assignedActor`/`assignedActorName` are untouched. -/
theorem C1_completion_sync (before : Option TaskDoc) (after : TaskDoc)
    (users : List UserDoc) (hc : after.completed = true)
    (i : Nat) (u r : UserDoc)
    (hu : users[i]? = some u)
    (hr : (syncUserPendingStrict before after users)[i]? = some r) :
    (u.uid = after.assignedUser ∧ u.uid ≠ "" → after.tid ∉ r.pendingTasks)
    ∧ (u.uid = prevAssigned before ∧ u.uid ≠ "" → after.tid ∉ r.pendingTasks)
    ∧ (u.uid ≠ after.assignedUser ∧ u.uid ≠ prevAssigned before → r = u)
    ∧ (syncUserPendingStrictAll before after users)[i]? = some (pullPend after.tid u) := by
  have hall : (syncUserPendingStrictAll before after users)[i]? = some (pullPend after.tid u) := by
    unfold syncUserPendingStrictAll
    simp only [hc, if_true, List.getElem?_map, hu, Option.map_some', Option.some_inj]
    by_cases hm : after.tid ∈ u.pendingTasks
    · simp [List.elem_iff, hm]
    · simp [List.elem_iff, hm, pullPend_of_not_mem _ _ hm]
  unfold syncUserPendingStrict at hr
  rw [hc] at hr
  cases before with
  | none =>
    have h := completion_pull_pointwise "" after.assignedUser after.tid users i u r hu hr
    exact ⟨h.1, h.2.1, h.2.2, hall⟩
  | some b =>
    have h := completion_pull_pointwise b.assignedUser after.assignedUser after.tid users i u r hu hr
    exact ⟨h.1, h.2.1, h.2.2, hall⟩

/-- Claim C1, witness: completing the item assigned to actor A (who holds it
in `pendingTasks`) leaves A's pending set without the id while A is still
the assigned actor. -/
theorem C1_completion_sync_witness :
    fxUserA.uid = fxAfterDone.assignedUser ∧ fxUserA.uid ≠ ""
    ∧ fxAfterDone.tid ∉
        ({ fxUserA with pendingTasks := ([] : List String) } : UserDoc).pendingTasks := by
  refine ⟨by decide, by decide, ?_⟩
  exact (C1_completion_sync (some fxBefore) fxAfterDone [fxUserA, fxUserC] (by decide)
    0 fxUserA { fxUserA with pendingTasks := ([] : List String) } (by decide) (by decide)).1
    ⟨by decide, by decide⟩

/-- Claim C6.  A successful actor deletion clears `assignedUser` to `""` and
`assignedUserName` to `"unassigned"` on every task that referenced the
deleted actor, and leaves every other task unchanged. -/
theorem C6_delete_cascade (db : DB) (pid : String) (u : UserDoc)
    (hfind : db.users.find? (fun v => v.uid == pid) = some u)
    (i : Nat) (t t' : TaskDoc)
    (ht : db.tasks[i]? = some t)
    (ht' : (deleteUser db pid).2.tasks[i]? = some t') :
    (deleteUser db pid).1 = Resp.ok "Deleted"
    ∧ (t.assignedUser = u.uid → t'.assignedUser = "" ∧ t'.assignedUserName = "unassigned")
    ∧ (t.assignedUser ≠ u.uid → t' = t) := by
  unfold deleteUser at ht' ⊢
  rw [hfind] at ht' ⊢
  simp only [List.getElem?_map, ht, Option.map_some', Option.some_inj] at ht'
  by_cases h : t.assignedUser = u.uid
  · refine ⟨rfl, fun _ => ?_, fun hn => absurd h hn⟩
    simp only [h, beq_self_eq_true, if_true] at ht'
    rw [← ht']
    exact ⟨rfl, rfl⟩
  · refine ⟨rfl, fun he => absurd he h, fun _ => ?_⟩
    have hb : (t.assignedUser == u.uid) = false := beq_eq_false_iff_ne.mpr h
    simp only [hb, Bool.false_eq_true, if_false] at ht'
    exact ht'.symm

/-- Claim C6, witness: deleting actor B un-assigns the task that referenced
B. -/
theorem C6_delete_cascade_witness :
    (deleteUser fxDbC4 fxIdB).1 = Resp.ok "Deleted"
    ∧ ({ fxTaskOfB with assignedUser := "", assignedUserName := "unassigned" } : TaskDoc).assignedUser = ""
    ∧ ({ fxTaskOfB with assignedUser := "", assignedUserName := "unassigned" } : TaskDoc).assignedUserName
        = "unassigned" := by
  have h := C6_delete_cascade fxDbC4 fxIdB fxUserB2 (by decide) 0 fxTaskOfB
      { fxTaskOfB with assignedUser := "", assignedUserName := "unassigned" } (by decide) (by decide)
  exact ⟨h.1, (h.2.1 (by decide)).1, (h.2.1 (by decide)).2⟩

/-- Claim C9.  Re-invoking the wired work-item synchronizer
(src/routes/tasks.js:37-52) with the same before/after pair is idempotent on
the actor collection: its corrective writes are `$pull` (remove-all) and
`$addToSet` (add-if-absent), both idempotent, issued to fixed targets. -/
theorem C9_sync_idempotent (before : Option TaskDoc) (after : TaskDoc)
    (users : List UserDoc) :
    syncUserPendingStrict before after (syncUserPendingStrict before after users)
      = syncUserPendingStrict before after users := by
  unfold syncUserPendingStrict
  generalize (match before with | some b => b.assignedUser | none => "") = prev
  by_cases h1 : (prev != "" && prev != after.assignedUser) = true
  · have hne : prev ≠ after.assignedUser := by
      have := (Bool.and_eq_true _ _).mp h1
      exact bne_iff_ne.mp this.2
    by_cases h2 : (after.assignedUser != "") = true
    · by_cases h3 : after.completed = true
      · simp only [h1, h2, h3, if_true]
        rw [updateById_comm prev after.assignedUser hne (pullPend after.tid) (pullPend after.tid)
          (pullPend_uid after.tid) (pullPend_uid after.tid)]
        rw [updateById_updateById_same _ _ _ (pullPend_uid after.tid),
            updateById_updateById_same _ _ _ (pullPend_uid after.tid)]
        rw [updateById_congr _ _ _ (pullPend_pullPend after.tid),
            updateById_congr _ _ _ (pullPend_pullPend after.tid)]
      · have h3' : after.completed = false := by simp at h3; exact h3
        simp only [h1, h2, h3', if_true, Bool.false_eq_true, if_false]
        rw [updateById_comm prev after.assignedUser hne (pullPend after.tid) (addPend after.tid)
          (pullPend_uid after.tid) (addPend_uid after.tid)]
        rw [updateById_updateById_same _ _ _ (addPend_uid after.tid),
            updateById_updateById_same _ _ _ (pullPend_uid after.tid)]
        rw [updateById_congr _ _ _ (addPend_addPend after.tid),
            updateById_congr _ _ _ (pullPend_pullPend after.tid)]
    · have h2' : (after.assignedUser != "") = false := by simp at h2 ⊢; exact h2
      simp only [h1, h2', if_true, Bool.false_eq_true, if_false]
      rw [updateById_updateById_same _ _ _ (pullPend_uid after.tid)]
      rw [updateById_congr _ _ _ (pullPend_pullPend after.tid)]
  · have h1' : (prev != "" && prev != after.assignedUser) = false := by
      simp only [Bool.not_eq_true] at h1
      exact h1
    by_cases h2 : (after.assignedUser != "") = true
    · by_cases h3 : after.completed = true
      · simp only [h1', h2, h3, if_true, Bool.false_eq_true, if_false]
        rw [updateById_updateById_same _ _ _ (pullPend_uid after.tid)]
        rw [updateById_congr _ _ _ (pullPend_pullPend after.tid)]
      · have h3' : after.completed = false := by simp at h3; exact h3
        simp only [h1', h2, h3', if_true, Bool.false_eq_true, if_false]
        rw [updateById_updateById_same _ _ _ (addPend_uid after.tid)]
        rw [updateById_congr _ _ _ (addPend_addPend after.tid)]
    · have h2' : (after.assignedUser != "") = false := by simp at h2 ⊢; exact h2
      simp only [h1', h2', Bool.false_eq_true, if_false]

/-- Claim C7.  `sanitizeSelect` (src/unnamed/part_000:50-69): an absent or
empty projection decodes to `undefined`; a projection that carries an
inclusion marker anywhere together with an exclusion marker on any field
other than `_id` fails with the mix error; a projection whose non-`_id`
fields all carry inclusion markers (so an exclusion may sit only on `_id`)
succeeds. -/
theorem C7_projection_rules (entries : List (String × SelVal)) :
    sanitizeSelect none = Except.ok none
    ∧ sanitizeSelect (some []) = Except.ok none
    ∧ ((∃ e ∈ entries, isIncMark e.2 = true) →
       (∃ e ∈ entries, e.1 ≠ "_id" ∧ isExcMark e.2 = true) →
       sanitizeSelect (some entries)
         = Except.error "Cannot mix inclusion and exclusion in select (except _id).")
    ∧ ((∀ e ∈ entries, e.1 = "_id" ∨ isIncMark e.2 = true) →
       ∃ v, sanitizeSelect (some entries) = Except.ok v) := by
  refine ⟨rfl, rfl, ?_, ?_⟩
  · rintro ⟨e1, he1, hi1⟩ ⟨e2, he2, hk2, hx2⟩
    have hne : entries ≠ [] := by
      rintro rfl
      exact absurd he1 (List.not_mem_nil e1)
    have hempty : entries.isEmpty = false := by
      cases entries with
      | nil => exact absurd rfl hne
      | cons a as => rfl
    have hinc : (entries.any (fun e => isIncMark e.2)) = true :=
      List.any_eq_true.mpr ⟨e1, he1, hi1⟩
    have hexc : (entries.any (fun e => isExcMark e.2)) = true :=
      List.any_eq_true.mpr ⟨e2, he2, hx2⟩
    have hrest : ((entries.filter (fun e => e.1 != "_id")).any (fun e => isExcMark e.2)) = true := by
      refine List.any_eq_true.mpr ⟨e2, ?_, hx2⟩
      exact List.mem_filter.mpr ⟨he2, bne_iff_ne.mpr hk2⟩
    simp [sanitizeSelect, hempty, hinc, hexc, hrest]
  · intro h
    simp only [sanitizeSelect]
    by_cases hempty : entries.isEmpty = true
    · rw [if_pos hempty]
      exact ⟨none, rfl⟩
    · rw [if_neg hempty]
      by_cases hmix : ((entries.any fun e => isIncMark e.2) && entries.any fun e => isExcMark e.2) = true
      · rw [if_pos hmix]
        have hrest : ((entries.filter (fun e => e.1 != "_id")).any (fun e => isExcMark e.2)) = false := by
          rw [← Bool.not_eq_true]
          intro hx
          rcases List.any_eq_true.mp hx with ⟨e, he, hxe⟩
          rcases List.mem_filter.mp he with ⟨hee, hkey⟩
          rcases h e hee with hid | hinc
          · exact absurd hid (bne_iff_ne.mp hkey)
          · rw [isIncMark_not_exc e.2 hinc] at hxe
            exact Bool.false_ne_true hxe
        rw [hrest]
        exact ⟨some entries, by simp⟩
      · rw [if_neg hmix]
        exact ⟨some entries, rfl⟩

/-- Claim C7, witness: the two spec examples — `{a:1, b:0}` fails,
`{_id:0, a:1}` succeeds. -/
theorem C7_projection_rules_witness :
    sanitizeSelect (some [("a", SelVal.one), ("b", SelVal.zero)])
      = Except.error "Cannot mix inclusion and exclusion in select (except _id)."
    ∧ sanitizeSelect (some [("_id", SelVal.zero), ("a", SelVal.one)])
      = Except.ok (some [("_id", SelVal.zero), ("a", SelVal.one)]) := by
  constructor
  · exact (C7_projection_rules [("a", SelVal.one), ("b", SelVal.zero)]).2.2.1
      ⟨("a", SelVal.one), by decide, by decide⟩
      ⟨("b", SelVal.zero), by decide, by decide⟩
  · rfl

/-- Claim C8, amended and settled.  `parseNonNegInt`
(src/unnamed/part_000:74-83), used by the task route's `parsePagination`
(src/routes/tasks.js:31-35): an absent value yields the fallback (0 for
skip, the caller default for limit); a present value fails with
"<name> must be a non-negative integer" exactly when its JS `Number(...)`
coercion is not a non-negative integer — not when it fails to be a base-10
digit string, so e.g. `"1e2"` is accepted (see the counterexample).  The
spec's two examples hold: `("abc", undefined, 100)` fails and
`(undefined, undefined, 100)` yields `{skip: 0, limit: 100}`.  The regex
revision (src/routes/users.js:61-78) does enforce the base-10 digit-string
rule of the original claim. -/
theorem C8_pagination_parsing (name r : String) (fb : Option Int) :
    parseNonNegInt name none fb = Except.ok fb
    ∧ (jsIsNonNegInt (jsNumber r) = false →
        parseNonNegInt name (some r) fb
          = Except.error (name ++ " must be a non-negative integer"))
    ∧ (jsIsNonNegInt (jsNumber r) = true →
        parseNonNegInt name (some r) fb = Except.ok (some (jsIntVal (jsNumber r))))
    ∧ parsePagination (some "abc") none (some 100)
        = Except.error "skip must be a non-negative integer"
    ∧ parsePagination none none (some 100) = Except.ok (some 0, some 100)
    ∧ (isDigitString r = false →
        parsePaginationRegex (some r) none (some 100)
          = Except.error "skip must be a non-negative integer") := by
  refine ⟨rfl, ?_, ?_, rfl, rfl, ?_⟩
  · intro h
    simp [parseNonNegInt, h]
  · intro h
    simp [parseNonNegInt, h]
  · intro h
    simp [parsePaginationRegex, h]

/-- Claim C8, witness: `"1e2"` fails the digit-string rule of the regex
revision, while the `Number`-based decoder accepts `"7"` as the integer 7. -/
theorem C8_pagination_parsing_witness :
    isDigitString "1e2" = false
    ∧ parsePaginationRegex (some "1e2") none (some 100)
        = Except.error "skip must be a non-negative integer"
    ∧ jsIsNonNegInt (jsNumber "7") = true
    ∧ parseNonNegInt "skip" (some "7") (some 0)
        = Except.ok (some (jsIntVal (jsNumber "7"))) := by
  refine ⟨by decide, ?_, by decide, ?_⟩
  · exact (C8_pagination_parsing "skip" "1e2" (some 100)).2.2.2.2.2 (by decide)
  · exact (C8_pagination_parsing "skip" "7" (some 0)).2.2.1 (by decide)


/-- Claim C4, amended and settled.  On a successful actor full update that
replaces `pendingTasks` with `l` (src/routes/users.js:199-215): every added
id naming an existing incomplete work item gets `assignedUser` set to this
actor and `assignedUserName` to the actor's (new) name, and every removed
id whose item still pointed at this actor is cleared to
`""`/`"unassigned"` — but the id is **not** pulled out of the previous
owner's `pendingTasks`: every user document other than the updated actor's
own is left unchanged (see the counterexample).  The part_001 revision's
`syncTasksOnUserPendingChange` does prune previous owners; the wired create
route performs no task-side writes at all. -/
theorem C4_pending_replacement (db : DB) (pid : String) (body : UserBody) (user : UserDoc)
    (l : List String) (n : String)
    (hfind : db.users.find? (fun u => u.uid == pid) = some user)
    (hok : (putUser db pid body).1 = Resp.ok "Updated")
    (hpt : body.pendingTasks = some l)
    (hname : body.name = some n)
    (huid : user.uid ≠ "") :
    (∀ (i : Nat) (t t' : TaskDoc), db.tasks[i]? = some t →
        ((putUser db pid body).2).tasks[i]? = some t' →
        ((t.tid ∈ l ∧ t.tid ∉ user.pendingTasks ∧ t.completed = false →
            t'.assignedUser = user.uid ∧ t'.assignedUserName = n)
         ∧ (t.tid ∈ user.pendingTasks ∧ t.tid ∉ l ∧ t.assignedUser = user.uid →
            t'.assignedUser = "" ∧ t'.assignedUserName = "unassigned")))
    ∧ (∀ (i : Nat) (v v' : UserDoc), db.users[i]? = some v →
        ((putUser db pid body).2).users[i]? = some v' → v.uid ≠ user.uid → v' = v) := by
  rw [putUser_ok_shape db pid body user hfind hok, hname, hpt]
  constructor
  · intro i t t' ht ht'
    simp only [putUserWrite, Option.getD_some] at ht'
    set sAdd := l.filter (fun x => !(jsSet user.pendingTasks).contains x) with hsAdd
    set sRem := (jsSet user.pendingTasks).filter (fun x => !l.contains x) with hsRem
    rw [guard_map_getElem, guard_map_getElem, guard_map_getElem, ht] at ht'
    simp only [Option.map_some', Option.some_inj] at ht'
    constructor
    · rintro ⟨hin, hnotold, hcomp⟩
      have hmem : t.tid ∈ sAdd := by
        rw [hsAdd]
        refine List.mem_filter.mpr ⟨hin, ?_⟩
        simp [mem_jsSet, List.elem_iff, hnotold]
      have hA1 : (!sAdd.isEmpty) = true := by
        cases hc : sAdd with
        | nil => rw [hc] at hmem; exact absurd hmem (List.not_mem_nil t.tid)
        | cons a as => rfl
      have hA2 : (sAdd.contains t.tid && !t.completed) = true := by
        simp [List.elem_iff, hmem, hcomp]
      have hR2 : (sRem.contains t.tid) = false := by
        rw [← Bool.not_eq_true]
        intro hcon
        have hmm : t.tid ∈ sRem := List.elem_iff.mp hcon
        rw [hsRem] at hmm
        have hp := (List.mem_filter.mp hmm).2
        simp [List.elem_iff, hin] at hp
      rw [← ht']
      simp only [hA1, hA2, hR2, if_true, Bool.false_and, Bool.false_eq_true, if_false, ite_self,
        and_self]
    · rintro ⟨hold, hnotin, hau⟩
      have hmem : t.tid ∈ sRem := by
        rw [hsRem]
        refine List.mem_filter.mpr ⟨(mem_jsSet _ _).mpr hold, ?_⟩
        simp [List.elem_iff, hnotin]
      have hR1 : (!sRem.isEmpty) = true := by
        cases hc : sRem with
        | nil => rw [hc] at hmem; exact absurd hmem (List.not_mem_nil t.tid)
        | cons a as => rfl
      have hA2 : (sAdd.contains t.tid) = false := by
        rw [← Bool.not_eq_true]
        intro hcon
        have hmm : t.tid ∈ sAdd := List.elem_iff.mp hcon
        rw [hsAdd] at hmm
        exact absurd (List.mem_filter.mp hmm).1 hnotin
      have hR2 : (sRem.contains t.tid && (t.assignedUser == user.uid)) = true := by
        simp [List.elem_iff, hmem, hau]
      have hRenC : ("" == user.uid) = false := beq_eq_false_iff_ne.mpr (Ne.symm huid)
      rw [← ht']
      simp only [hA2, Bool.false_and, Bool.false_eq_true, if_false, ite_self, hR1, if_true, hR2,
        hRenC, and_self]
  · intro i v v' hv hv' hne
    simp only [putUserWrite, Option.getD_some] at hv'
    rw [updateById_getElem, hv] at hv'
    simp only [Option.map_some', Option.some_inj] at hv'
    rw [← hv', if_neg hne]



/-- Claim C5, counterexample.  The claim's second clause — "if the name is
unchanged, no work item's assignedActorName is rewritten" — fails on the
wired `PUT /api/users/:id`: a full update that keeps actor A's name "Al"
but supplies a `pendingTasks` replacement adding the work item owned by
actor B is accepted, and the added-items write (src/routes/users.js:203-208)
rewrites that item's `assignedUserName` from "Bo" to "Al" although the name
did not change. -/
theorem C5_counterexample :
    fxPutUserBody.name = some fxUserA2.name
    ∧ fxTaskOfB.assignedUserName = "Bo"
    ∧ (putUser fxDbC4 fxIdA fxPutUserBody).1 = Resp.ok "Updated"
    ∧ ((putUser fxDbC4 fxIdA fxPutUserBody).2).tasks[0]?
        = some { fxTaskOfB with assignedUser := fxIdA, assignedUserName := "Al" }
    ∧ ({ fxTaskOfB with assignedUser := fxIdA, assignedUserName := "Al" } : TaskDoc).assignedUserName
        ≠ fxTaskOfB.assignedUserName := by
  exact ⟨rfl, rfl, rfl, by decide, by decide⟩

/-- Claim C5, amended and settled.  A successful actor full update that
changes the name leaves every work item whose `assignedUser` is this
actor — completed ones included, since the rename `updateMany` filters only
on `assignedUser` — with `assignedUserName` equal to the new name.  When the
name is unchanged, the rename propagation itself issues no write: a full
update that supplies no `pendingTasks` replacement leaves the task
collection untouched (a supplied replacement can still rewrite
`assignedUserName` of added or removed items, as the counterexample
shows). -/
theorem C5_rename_propagation (db : DB) (pid : String) (body : UserBody) (user : UserDoc)
    (n : String)
    (hfind : db.users.find? (fun u => u.uid == pid) = some user)
    (hok : (putUser db pid body).1 = Resp.ok "Updated")
    (hname : body.name = some n) :
    (n ≠ user.name →
        ∀ (i : Nat) (t' : TaskDoc), ((putUser db pid body).2).tasks[i]? = some t' →
          t'.assignedUser = user.uid → t'.assignedUserName = n)
    ∧ (n = user.name → body.pendingTasks = none → ((putUser db pid body).2).tasks = db.tasks) := by
  rw [putUser_ok_shape db pid body user hfind hok, hname]
  constructor
  · intro hne i t' ht' hau
    simp only [putUserWrite, Option.getD_some] at ht'
    have hb : (user.name != n) = true := bne_iff_ne.mpr (Ne.symm hne)
    rw [if_pos hb, List.getElem?_map] at ht'
    rcases Option.map_eq_some'.mp ht' with ⟨t1, ht1, heq⟩
    by_cases h : (t1.assignedUser == user.uid) = true
    · rw [← heq, if_pos h]
    · rw [← heq, if_neg h] at hau
      exact absurd (beq_iff_eq.mpr hau) h
  · intro he hpt
    simp only [putUserWrite, hpt, Option.getD_some]
    have hb2 : (user.name != n) = false := by
      rw [he]
      exact bne_self_eq_false user.name
    rw [if_neg (by simp [hb2])]




/-- Claim C4, witness: actor A's full update adds the work item previously
owned by actor B; the item ends assigned to A with A's name. -/
theorem C4_pending_replacement_witness :
    ((putUser fxDbC4 fxIdA fxPutUserBody).2).tasks[0]?
        = some { fxTaskOfB with assignedUser := fxIdA, assignedUserName := "Al" }
    ∧ ({ fxTaskOfB with assignedUser := fxIdA, assignedUserName := "Al" } : TaskDoc).assignedUser
        = fxIdA
    ∧ ({ fxTaskOfB with assignedUser := fxIdA, assignedUserName := "Al" } : TaskDoc).assignedUserName
        = "Al" := by
  refine ⟨by decide, ?_, ?_⟩
  · exact (((C4_pending_replacement fxDbC4 fxIdA fxPutUserBody fxUserA2 [fxTid1] "Al"
      (by decide) (by decide) rfl rfl (by decide)).1 0 fxTaskOfB
      { fxTaskOfB with assignedUser := fxIdA, assignedUserName := "Al" } (by decide) (by decide)).1
      ⟨by decide, by decide, by decide⟩).1
  · exact (((C4_pending_replacement fxDbC4 fxIdA fxPutUserBody fxUserA2 [fxTid1] "Al"
      (by decide) (by decide) rfl rfl (by decide)).1 0 fxTaskOfB
      { fxTaskOfB with assignedUser := fxIdA, assignedUserName := "Al" } (by decide) (by decide)).1
      ⟨by decide, by decide, by decide⟩).2

/-- Claim C5, witness: renaming actor A from "Al" to "Albert" updates the
cached name on A's completed work item. -/
theorem C5_rename_propagation_witness :
    fxTaskDone.completed = true
    ∧ ((putUser fxDbC5 fxIdA fxRenameBody).2).tasks[0]?
        = some { fxTaskDone with assignedUserName := "Albert" }
    ∧ ({ fxTaskDone with assignedUserName := "Albert" } : TaskDoc).assignedUserName
        = "Albert" := by
  refine ⟨by decide, by decide, ?_⟩
  exact (C5_rename_propagation fxDbC5 fxIdA fxRenameBody fxUserA2 "Albert"
    (by decide) (by decide) rfl).1 (by decide) 0
    { fxTaskDone with assignedUserName := "Albert" } (by decide) (by decide)

/-- Claim C10.  On work-item create and full update
(src/routes/tasks.js:94-102 and 159-167): when the body supplies an
`assignedUser` naming an existing actor together with an `assignedUserName`
different from that actor's stored name, the request is rejected with
400 "assignedUserName must match the user's name" and the store is
untouched; when the supplied name matches or is absent, the stored record
receives the actor's actual current name. -/
theorem C10_assigned_name_guard (db : DB) (newId pid : String) (body : TaskBody)
    (uid : String) (u : UserDoc) (task : TaskDoc)
    (hau : bodyAssignedUser body = uid)
    (huid : uid ≠ "")
    (hvalid : isValidObjectId uid = true)
    (hfind : db.users.find? (fun v => v.uid == uid) = some u)
    (hreq : (!truthyS body.name || body.deadline.isNone) = false)
    (hpid : isValidObjectId pid = true)
    (htask : db.tasks.find? (fun t => t.tid == pid) = some task) :
    (∀ m : String, body.assignedUserName = some m → m ≠ u.name →
        postTask db newId body
          = (Resp.badRequest "assignedUserName must match the user's name", db)
        ∧ putTask db pid body
          = (Resp.badRequest "assignedUserName must match the user's name", db))
    ∧ ((body.assignedUserName = none ∨ body.assignedUserName = some u.name) →
        ((postTask db newId body).1 = Resp.created "Created"
          ∧ (postTask db newId body).2.tasks
              = db.tasks ++ [{ tid := newId, name := body.name.getD ""
                               description := body.description.getD ""
                               deadline := body.deadline.getD ""
                               completed := body.completed.getD false
                               assignedUser := uid, assignedUserName := u.name }])
        ∧ ((putTask db pid body).1 = Resp.ok "Updated"
          ∧ ∀ (i : Nat) (t0 t' : TaskDoc), db.tasks[i]? = some t0 →
              (putTask db pid body).2.tasks[i]? = some t' →
              (t0.tid = pid →
                  t'.assignedUser = uid ∧ t'.assignedUserName = u.name)
              ∧ (t0.tid ≠ pid → t' = t0))) := by
  have hbu : (uid != "") = true := bne_iff_ne.mpr huid
  have hvf : (!isValidObjectId uid) = false := by rw [hvalid]; rfl
  have hpf : (!isValidObjectId pid) = false := by rw [hpid]; rfl
  constructor
  · intro m hm hne
    constructor
    · simp only [postTask, hreq, Bool.false_eq_true, if_false, hau, hbu, if_true, hvf,
        hfind, hm]
      rw [if_pos hne]
    · simp only [putTask, hpf, Bool.false_eq_true, if_false, htask, hreq, hau, hbu,
        if_true, hvf, hfind, hm]
      rw [if_pos hne]
  · intro hn
    refine ⟨⟨?_, ?_⟩, ?_, ?_⟩
    · rcases hn with hn | hn
      · simp only [postTask, hreq, Bool.false_eq_true, if_false, hau, hbu, if_true, hvf,
          hfind, hn]
        rfl
      · simp only [postTask, hreq, Bool.false_eq_true, if_false, hau, hbu, if_true, hvf,
          hfind, hn]
        rw [if_neg (fun h => h rfl)]
        rfl
    · rcases hn with hn | hn
      · simp only [postTask, hreq, Bool.false_eq_true, if_false, hau, hbu, if_true, hvf,
          hfind, hn]
        rfl
      · simp only [postTask, hreq, Bool.false_eq_true, if_false, hau, hbu, if_true, hvf,
          hfind, hn]
        rw [if_neg (fun h => h rfl)]
        rfl
    · rcases hn with hn | hn
      · simp only [putTask, hpf, Bool.false_eq_true, if_false, htask, hreq, hau, hbu,
          if_true, hvf, hfind, hn]
        rfl
      · simp only [putTask, hpf, Bool.false_eq_true, if_false, htask, hreq, hau, hbu,
          if_true, hvf, hfind, hn]
        rw [if_neg (fun h => h rfl)]
        rfl
    · intro i t0 t' ht0 ht'
      have hput : (putTask db pid body).2.tasks
          = db.tasks.map (fun x =>
              if x.tid = pid then
                { task with
                  name := body.name.getD ""
                  description := body.description.getD ""
                  deadline := body.deadline.getD ""
                  completed := body.completed.getD false
                  assignedUser := uid, assignedUserName := u.name }
              else x) := by
        rcases hn with hn | hn
        · simp only [putTask, hpf, Bool.false_eq_true, if_false, htask, hreq, hau, hbu,
            if_true, hvf, hfind, hn]
          rfl
        · simp only [putTask, hpf, Bool.false_eq_true, if_false, htask, hreq, hau, hbu,
            if_true, hvf, hfind, hn]
          rw [if_neg (fun h => h rfl)]
          rfl
      rw [hput, List.getElem?_map, ht0] at ht'
      simp only [Option.map_some', Option.some_inj] at ht'
      constructor
      · intro he
        rw [← ht', if_pos he]
        exact ⟨rfl, rfl⟩
      · intro he
        rw [← ht', if_neg he]




/-- Claim C10, witness: supplying `assignedUserName: "Bob"` for an actor
named "Al" is rejected by both create and full update, leaving the store
unchanged. -/
theorem C10_assigned_name_guard_witness :
    postTask fxDbC5 fxIdB fxTaskBody10
      = (Resp.badRequest "assignedUserName must match the user's name", fxDbC5)
    ∧ putTask fxDbC5 fxTid1 fxTaskBody10
      = (Resp.badRequest "assignedUserName must match the user's name", fxDbC5) := by
  have h := (C10_assigned_name_guard fxDbC5 fxIdB fxTid1 fxTaskBody10 fxIdA fxUserA2 fxTaskDone
    rfl (by decide) (by decide) (by decide) (by decide) (by decide) (by decide)).1
    "Bob" rfl (by decide)
  exact ⟨h.1, h.2⟩

end MP3
